import Mathlib

/-!
Yaoundé education WAN simulation: topology, addressing, layout and statistics.

A shallow embedding of `celmia.cc`, the single source file of the simulation
script: the access-link configuration of the WAN loop, the address plan, the
choice of client devices, the placement of nodes for the animation and the
statistics block that summarises the flow monitor's records, followed by the
properties established about them.

Unsigned machine integers are natural numbers, with an explicit remainder
where a counter of the program can wrap; `double`s are read as exact rationals
or reals. Line numbers refer to `celmia.cc`.
-/

namespace Celmia

/-! ## Definitions -/

/-! ### Access links (lines 84-121) -/

/-- The two attributes the WAN loop sets on a point-to-point link: the
`DataRate` of the devices and the `Delay` of the channel, as the strings the
program passes. -/
structure LinkProfile where
  dataRate : String
  delay : String
  deriving DecidableEq, Repr

/-- The access-link configuration of school `i`: the `if`/`else if` chain of
lines 100-115. -/
def wanLinkProfile (i : Nat) : LinkProfile :=
  if i = 0 then ⟨"1Gbps", "5ms"⟩
  else if i = 1 then ⟨"100Mbps", "20ms"⟩
  else if i = 2 then ⟨"50Mbps", "600ms"⟩
  else if i = 3 then ⟨"200Mbps", "10ms"⟩
  else ⟨"20Mbps", "30ms"⟩

/-- The vector `accessTech` of lines 92-94. -/
def accessTech : List String :=
  ["Fibre Optique", "4G/5G", "Satellite", "Liaison Radio", "ADSL"]

/-- The technology name the program logs for school `i` (line 120) and writes
into the node description (line 254): `accessTech[i % accessTech.size()]`. -/
def accessTechLabel (i : Nat) : String :=
  accessTech.getD (i % accessTech.length) ""

/-- The technology table of the specification: the five profiles in the order
fibre, cellular, satellite, radio, copper, with the values the code gives to
schools 0 to 4. -/
def technologyTable : List LinkProfile :=
  [⟨"1Gbps", "5ms"⟩, ⟨"100Mbps", "20ms"⟩, ⟨"50Mbps", "600ms"⟩, ⟨"200Mbps", "10ms"⟩,
    ⟨"20Mbps", "30ms"⟩]

/-- The profile the specification selects for school `i`:
`technologyTable[i mod technologyTable.length]`. -/
def tableProfile (i : Nat) : Option LinkProfile :=
  technologyTable[i % technologyTable.length]?

/-! ### Address plan (lines 152-176) -/

/-- Dotted-decimal text of an IPv4 address or mask as the program writes it:
the four decimal fields between the dots. -/
structure DottedQuad where
  a : Nat
  b : Nat
  c : Nat
  d : Nat
  deriving DecidableEq, Repr

/-- The text of a dotted quad: its fields in decimal, separated by dots. -/
def DottedQuad.text (q : DottedQuad) : String :=
  toString q.a ++ "." ++ toString q.b ++ "." ++ toString q.c ++ "." ++ toString q.d

/-- The string built at lines 163-164 for school `i`: `"10.1." << i << ".0"`. -/
def wanSubnet (i : Nat) : String := "10.1." ++ toString i ++ ".0"

/-- The string built at lines 172-173 for school `i`: `"192.168." << i << ".0"`. -/
def lanSubnet (i : Nat) : String := "192.168." ++ toString i ++ ".0"

/-- One `SetBase (network, mask)` call of the address section. -/
structure AddressBlock where
  network : DottedQuad
  mask : DottedQuad
  deriving DecidableEq, Repr

/-- Core network, line 157: `SetBase ("10.0.0.0", "255.255.255.252")`. -/
def coreBlock : AddressBlock :=
  { network := ⟨10, 0, 0, 0⟩, mask := ⟨255, 255, 255, 252⟩ }

/-- WAN subnet of school `i`, lines 163-165: the fields of the text `wanSubnet i`
with mask `"255.255.255.252"`. -/
def wanBlock (i : Nat) : AddressBlock :=
  { network := ⟨10, 1, i, 0⟩, mask := ⟨255, 255, 255, 252⟩ }

/-- LAN subnet of school `i`, lines 172-174: the fields of the text `lanSubnet i`
with mask `"255.255.255.0"`. -/
def lanBlock (i : Nat) : AddressBlock :=
  { network := ⟨192, 168, i, 0⟩, mask := ⟨255, 255, 255, 0⟩ }

/-- The blocks the address section sets up, in program order (lines 157-176):
the core block, then the WAN loop, then the LAN loop, each loop running over
`i = 0 .. nSchools - 1`. -/
def addressPlan (nSchools : Nat) : List AddressBlock :=
  coreBlock :: ((List.range nSchools).map wanBlock ++ (List.range nSchools).map lanBlock)

/-- All four fields of the text fit an octet. -/
def DottedQuad.WellFormed (q : DottedQuad) : Prop :=
  q.a < 256 ∧ q.b < 256 ∧ q.c < 256 ∧ q.d < 256

instance (q : DottedQuad) : Decidable q.WellFormed := by
  unfold DottedQuad.WellFormed; infer_instance

/-- Network and mask are both well-formed dotted quads. -/
def AddressBlock.WellFormed (b : AddressBlock) : Prop :=
  b.network.WellFormed ∧ b.mask.WellFormed

instance (b : AddressBlock) : Decidable b.WellFormed := by
  unfold AddressBlock.WellFormed; infer_instance

/-- The 32-bit value of a dotted quad. The conversion of text to an address
belongs to the simulator library, which is not part of the repository, so the
reading `rd` of one decimal field as an octet is a parameter. -/
def DottedQuad.value (rd : Nat → Option Nat) (q : DottedQuad) : Option Nat :=
  match rd q.a, rd q.b, rd q.c, rd q.d with
  | some a, some b, some c, some d => some (a * 2 ^ 24 + b * 2 ^ 16 + c * 2 ^ 8 + d)
  | _, _, _, _ => none

/-- The reading that rejects a field above 255. -/
def strictOctet (n : Nat) : Option Nat := if n < 256 then some n else none

/-- The reading that keeps the low eight bits of a field. -/
def wrapOctet (n : Nat) : Option Nat := some (n % 256)

/-- The reading agrees with the decimal value on every field that fits an octet. -/
def ReadsOctets (rd : Nat → Option Nat) : Prop := ∀ n, n < 256 → rd n = some n

/-- Whatever the reading yields is an octet. -/
def OctetValued (rd : Nat → Option Nat) : Prop := ∀ n m, rd n = some m → m < 256

/-- Number of addresses of the subnet of a contiguous mask of value `m`. -/
def subnetSize (m : Nat) : Nat := 2 ^ 32 - m

/-- The half-open range `[lo, hi)` of addresses the block covers: the subnet
of its mask that contains its network address. `none` when the text of the
network or of the mask does not denote an address. -/
def AddressBlock.range (rd : Nat → Option Nat) (b : AddressBlock) : Option (Nat × Nat) :=
  match b.network.value rd, b.mask.value rd with
  | some net, some m =>
      some (net / subnetSize m * subnetSize m, net / subnetSize m * subnetSize m + subnetSize m)
  | _, _ => none

/-- Both blocks denote address ranges and the ranges have no address in common. -/
def AddressBlock.DisjointFrom (rd : Nat → Option Nat) (b₁ b₂ : AddressBlock) : Prop :=
  match b₁.range rd, b₂.range rd with
  | some r₁, some r₂ => r₁.2 ≤ r₂.1 ∨ r₂.2 ≤ r₁.1
  | _, _ => False

instance (rd : Nat → Option Nat) (b₁ b₂ : AddressBlock) :
    Decidable (AddressBlock.DisjointFrom rd b₁ b₂) := by
  unfold AddressBlock.DisjointFrom; split <;> infer_instance

/-- The blocks of the plan cover pairwise disjoint address ranges. -/
def PlanDisjoint (rd : Nat → Option Nat) (nSchools : Nat) : Prop :=
  (addressPlan nSchools).Pairwise (AddressBlock.DisjointFrom rd)

instance (rd : Nat → Option Nat) (nSchools : Nat) : Decidable (PlanDisjoint rd nSchools) := by
  unfold PlanDisjoint; infer_instance

/-- Number of host addresses that can be assigned inside the block: all
addresses of the subnet but the network and the broadcast address. -/
def AddressBlock.hostCapacity (rd : Nat → Option Nat) (b : AddressBlock) : Option Nat :=
  (b.range rd).map (fun r => r.2 - r.1 - 2)

/-- Number of nodes on the LAN of one school (lines 134-138): the school
router and the `nStudentsPerSchool` devices, each needing one address. -/
def lanNodeCount (nStudentsPerSchool : Nat) : Nat := 1 + nStudentsPerSchool

/-- One use of the address helper by the program: `SetBase (network, mask)`
followed by `Assign` on a container of `devices` net devices (lines 157-158,
165-166, 174-175). -/
structure AssignRequest where
  block : AddressBlock
  devices : Nat
  deriving DecidableEq, Repr

/-- A library that refuses exactly the requests whose text is not a well-formed
dotted quad. -/
def strictLibrary (_served : List AssignRequest) (r : AssignRequest) : Bool :=
  decide r.block.WellFormed

/-- The index computed at line 198, `j % nStudentsPerSchool` on unsigned
integers: the remainder is undefined when `nStudentsPerSchool` is zero, which
is `none` here. -/
def deviceIdx (nStudentsPerSchool j : Nat) : Option Nat :=
  if nStudentsPerSchool = 0 then none else some (j % nStudentsPerSchool)

/-- The indices of the devices that get one of the five clients of a school
(loop of line 192). -/
def clientDevices (nStudentsPerSchool : Nat) : List (Option Nat) :=
  (List.range 5).map (deviceIdx nStudentsPerSchool)

/-! ### Node positions (lines 218-247) -/

/-- Number of devices per ring, the local constant of line 235. -/
def devicesPerRing : Nat := 20

/-- Ring number of device `j` (line 236). -/
def ring (j : Nat) : Nat := j / devicesPerRing

/-- Position of device `j` inside its ring (line 237). -/
def posInRing (j : Nat) : Nat := j % devicesPerRing

/-- Ring radius of device `j` (line 239), `5.0 + ring * 3.0` read in a field. -/
def deviceRadius {α : Type} [Field α] (j : Nat) : α := 5 + (ring j : α) * 3

/-- Angle of device `j` on its ring (line 240); `pi` stands for `M_PI`. -/
def deviceAngle {α : Type} [Field α] (pi : α) (j : Nat) : α :=
  2 * pi * (posInRing j : α) / (devicesPerRing : α)

/-- Value of the variable `angle` at the start of iteration `i` of the router
loop: it starts at 0 (line 225) and grows by `2 * M_PI / nSchools` at the end of
every iteration (line 246). -/
def routerAngle {α : Type} [Field α] (pi : α) (nSchools : Nat) : Nat → α
  | 0 => 0
  | i + 1 => routerAngle pi nSchools i + 2 * pi / (nSchools : α)

/-- Position given to school router `i` (lines 226-230); `cos` and `sin` stand
for `std::cos` and `std::sin`. -/
def routerPos {α : Type} [Field α] (pi : α) (cos sin : α → α) (nSchools i : Nat) : α × α :=
  (50 + 20 * cos (routerAngle pi nSchools i), 30 + 20 * sin (routerAngle pi nSchools i))

/-- Position given to device `j` of school `i` (lines 239-243). -/
def devicePos {α : Type} [Field α] (pi : α) (cos sin : α → α) (nSchools i j : Nat) : α × α :=
  ((routerPos pi cos sin nSchools i).1 + deviceRadius j * cos (deviceAngle pi j),
   (routerPos pi cos sin nSchools i).2 + deviceRadius j * sin (deviceAngle pi j))

/-! ### Final statistics (lines 278-320) -/

/-- One entry of the flow monitor's statistics container, restricted to the
counters the statistics block reads (celmia.cc lines 296-302); `delaySum` is
the accumulated delay in seconds. -/
structure FlowStats where
  txPackets : Nat
  rxPackets : Nat
  rxBytes : Nat
  delaySum : ℚ

/-- The five accumulators declared at lines 287-291. The two packet totals are
`uint64_t` and `flowCount` is `uint32_t`; the two `double`s are read as exact
rationals. -/
structure StatsAcc where
  totalThroughput : ℚ
  totalPacketsSent : Nat
  totalPacketsReceived : Nat
  totalDelay : ℚ
  flowCount : Nat

/-- Initial values of the accumulators (lines 287-291). -/
def StatsAcc.init : StatsAcc :=
  { totalThroughput := 0, totalPacketsSent := 0, totalPacketsReceived := 0,
    totalDelay := 0, flowCount := 0 }

/-- Body of the loop over the flow statistics (lines 296-305). -/
def statsStep (simulationTime : ℚ) (acc : StatsAcc) (f : FlowStats) : StatsAcc :=
  let throughput : ℚ := (f.rxBytes : ℚ) * 8 / simulationTime / 1000000
  let acc1 : StatsAcc :=
    { acc with
      totalThroughput := acc.totalThroughput + throughput
      totalPacketsSent := (acc.totalPacketsSent + f.txPackets) % 2 ^ 64
      totalPacketsReceived := (acc.totalPacketsReceived + f.rxPackets) % 2 ^ 64 }
  if f.rxPackets > 0 then
    let avgDelay : ℚ := f.delaySum / (f.rxPackets : ℚ)
    { acc1 with
      totalDelay := acc1.totalDelay + avgDelay
      flowCount := (acc1.flowCount + 1) % 2 ^ 32 }
  else acc1

/-- The loop of lines 293-306, run over the flow records in container order. -/
def statsLoop (simulationTime : ℚ) (flows : List FlowStats) : StatsAcc :=
  flows.foldl (statsStep simulationTime) StatsAcc.init

/-- What the statistics block logs (lines 308-316): a field is `some v` when
the corresponding line is logged with value `v`, and `none` when no line is
logged for it. -/
structure Report where
  totalThroughput : Option ℚ
  packetsSent : Option Nat
  packetsReceived : Option Nat
  deliveryRatio : Option ℚ
  meanDelayMs : Option ℚ

/-- The log statements of lines 308-316. -/
def logReport (acc : StatsAcc) : Report :=
  { totalThroughput := some acc.totalThroughput
    packetsSent := some acc.totalPacketsSent
    packetsReceived := some acc.totalPacketsReceived
    deliveryRatio :=
      if acc.totalPacketsSent > 0 then
        some ((acc.totalPacketsReceived : ℚ) * 100 / (acc.totalPacketsSent : ℚ))
      else none
    meanDelayMs :=
      if acc.flowCount > 0 then
        some (acc.totalDelay / (acc.flowCount : ℚ) * 1000)
      else none }

/-- The whole statistics block: the loop followed by the log statements. -/
def finalStatistics (simulationTime : ℚ) (flows : List FlowStats) : Report :=
  logReport (statsLoop simulationTime flows)

/-- The flows with at least one received packet, those for which the loop
computes a per-flow mean delay. -/
def deliveredFlows (flows : List FlowStats) : List FlowStats :=
  flows.filter (fun f => decide (0 < f.rxPackets))

/-- The two flows of the worked example. -/
def exampleFlows : List FlowStats :=
  [ { txPackets := 100, rxPackets := 100, rxBytes := 102400, delaySum := 1 },
    { txPackets := 100, rxPackets := 50, rxBytes := 51200, delaySum := 3 / 5 } ]


/-- The packet-weighted mean delay in milliseconds, the quantity the loop does
NOT compute: total delay over total received packets. -/
def packetWeightedDelayMs (flows : List FlowStats) : ℚ :=
  1000 * (flows.map FlowStats.delaySum).sum / ((flows.map FlowStats.rxPackets).sum : ℚ)

/-- None of the three integer counters of the loop wraps on `flows`: the two
64-bit packet totals and the 32-bit count of flows with deliveries. -/
def NoCounterOverflow (flows : List FlowStats) : Prop :=
  (flows.map FlowStats.txPackets).sum < 2 ^ 64 ∧
  (flows.map FlowStats.rxPackets).sum < 2 ^ 64 ∧
  (deliveredFlows flows).length < 2 ^ 32

instance (flows : List FlowStats) : Decidable (NoCounterOverflow flows) := by
  unfold NoCounterOverflow; infer_instance

/-! ## Properties -/

/-! ### Access links -/

theorem wanLinkProfile_of_ge (i : Nat) (hi : 4 ≤ i) : wanLinkProfile i = ⟨"20Mbps", "30ms"⟩ := by
  unfold wanLinkProfile
  rw [if_neg (by omega), if_neg (by omega), if_neg (by omega), if_neg (by omega)]

/-- C2 (the code at the failing input). School 5 gets the link profile of the
final `else` branch, 20Mbps and 30ms, not the profile 1Gbps and 5ms of school 0
that `technologyTable[5 mod 5]` selects, although the program labels school 5
"Fibre Optique" like school 0; the profile follows the table only for the
schools 0 to 4, and every school from index 4 on gets the profile of school 4. -/
theorem wan_profile_not_cyclic :
    wanLinkProfile 0 = ⟨"1Gbps", "5ms"⟩ ∧ wanLinkProfile (0 + 5) = ⟨"20Mbps", "30ms"⟩ ∧
    wanLinkProfile 0 ≠ wanLinkProfile (0 + 5) ∧
    tableProfile (0 + 5) = some ⟨"1Gbps", "5ms"⟩ ∧
    accessTechLabel (0 + 5) = "Fibre Optique" ∧ accessTechLabel 4 = "ADSL" ∧
    (∀ i, i < 5 → tableProfile i = some (wanLinkProfile i)) ∧
    (∀ i, 4 ≤ i → wanLinkProfile i = wanLinkProfile 4) := by
  refine ⟨rfl, rfl, by decide, rfl, by decide, by decide, ?_, ?_⟩
  · intro i hi
    interval_cases i <;> rfl
  · intro i hi
    rw [wanLinkProfile_of_ge i hi, wanLinkProfile_of_ge 4 (le_refl 4)]

/-! ### Address ranges of the blocks -/

/-- The quads of the blocks are the fields of the strings the program builds. -/
theorem block_text (i : Nat) :
    (wanBlock i).network.text = wanSubnet i ∧ (lanBlock i).network.text = lanSubnet i ∧
    (wanBlock i).mask.text = "255.255.255.252" ∧ (lanBlock i).mask.text = "255.255.255.0" ∧
    coreBlock.network.text = "10.0.0.0" ∧ coreBlock.mask.text = "255.255.255.252" := by
  have h10 : toString (10 : Nat) = "10" := by decide
  have h1 : toString (1 : Nat) = "1" := by decide
  have h0 : toString (0 : Nat) = "0" := by decide
  have h192 : toString (192 : Nat) = "192" := by decide
  have h168 : toString (168 : Nat) = "168" := by decide
  have hw : (wanBlock i).mask = ⟨255, 255, 255, 252⟩ := rfl
  have hl : (lanBlock i).mask = ⟨255, 255, 255, 0⟩ := rfl
  refine ⟨?_, ?_, by rw [hw]; decide, by rw [hl]; decide, by decide, by decide⟩
  · unfold DottedQuad.text wanSubnet wanBlock
    simp only [h10, h1, h0, String.append_assoc]
    rfl
  · unfold DottedQuad.text lanSubnet lanBlock
    simp only [h192, h168, h0, String.append_assoc]
    rfl

theorem strictOctet_reads : ReadsOctets strictOctet := by
  intro n hn; simp [strictOctet, hn]

theorem strictOctet_valued : OctetValued strictOctet := by
  intro n m h
  unfold strictOctet at h
  split at h
  · cases h; assumption
  · cases h

theorem wrapOctet_reads : ReadsOctets wrapOctet := by
  intro n hn; simp [wrapOctet, Nat.mod_eq_of_lt hn]

theorem value_of_reads {rd : Nat → Option Nat} (hrd : ReadsOctets rd) (a b c d : Nat)
    (ha : a < 256) (hb : b < 256) (hc : c < 256) (hd : d < 256) :
    DottedQuad.value rd ⟨a, b, c, d⟩ = some (a * 2 ^ 24 + b * 2 ^ 16 + c * 2 ^ 8 + d) := by
  simp [DottedQuad.value, hrd a ha, hrd b hb, hrd c hc, hrd d hd]

theorem coreBlock_range {rd : Nat → Option Nat} (hrd : ReadsOctets rd) :
    coreBlock.range rd = some (167772160, 167772164) := by
  unfold AddressBlock.range coreBlock
  simp only [value_of_reads hrd 10 0 0 0 (by decide) (by decide) (by decide) (by decide),
    value_of_reads hrd 255 255 255 252 (by decide) (by decide) (by decide) (by decide)]
  norm_num [subnetSize]

theorem wanBlock_range {rd : Nat → Option Nat} (hrd : ReadsOctets rd) (i : Nat)
    (hi : i < 256) :
    (wanBlock i).range rd = some (167837696 + 256 * i, 167837696 + 256 * i + 4) := by
  unfold AddressBlock.range wanBlock
  simp only [value_of_reads hrd 10 1 i 0 (by decide) (by decide) hi (by decide),
    value_of_reads hrd 255 255 255 252 (by decide) (by decide) (by decide) (by decide)]
  have hs : subnetSize (255 * 2 ^ 24 + 255 * 2 ^ 16 + 255 * 2 ^ 8 + 252) = 4 := by
    norm_num [subnetSize]
  rw [hs]
  have : (10 * 2 ^ 24 + 1 * 2 ^ 16 + i * 2 ^ 8 + 0) / 4 * 4 = 167837696 + 256 * i := by
    omega
  rw [this]

theorem lanBlock_range {rd : Nat → Option Nat} (hrd : ReadsOctets rd) (i : Nat)
    (hi : i < 256) :
    (lanBlock i).range rd = some (3232235520 + 256 * i, 3232235520 + 256 * i + 256) := by
  unfold AddressBlock.range lanBlock
  simp only [value_of_reads hrd 192 168 i 0 (by decide) (by decide) hi (by decide),
    value_of_reads hrd 255 255 255 0 (by decide) (by decide) (by decide) (by decide)]
  have hs : subnetSize (255 * 2 ^ 24 + 255 * 2 ^ 16 + 255 * 2 ^ 8 + 0) = 256 := by
    norm_num [subnetSize]
  rw [hs]
  have : (192 * 2 ^ 24 + 168 * 2 ^ 16 + i * 2 ^ 8 + 0) / 256 * 256 = 3232235520 + 256 * i := by
    omega
  rw [this]

theorem disjointFrom_of_ranges {rd : Nat → Option Nat} {b₁ b₂ : AddressBlock}
    {r₁ r₂ : Nat × Nat} (h₁ : b₁.range rd = some r₁) (h₂ : b₂.range rd = some r₂)
    (h : r₁.2 ≤ r₂.1 ∨ r₂.2 ≤ r₁.1) : AddressBlock.DisjointFrom rd b₁ b₂ := by
  unfold AddressBlock.DisjointFrom
  rw [h₁, h₂]
  exact h

theorem wan_disjoint_wan {rd : Nat → Option Nat} (hrd : ReadsOctets rd) (i j : Nat)
    (hi : i < 256) (hj : j < 256) (hij : i < j) :
    AddressBlock.DisjointFrom rd (wanBlock i) (wanBlock j) :=
  disjointFrom_of_ranges (wanBlock_range hrd i hi) (wanBlock_range hrd j hj)
    (Or.inl (by show 167837696 + 256 * i + 4 ≤ 167837696 + 256 * j; omega))

theorem lan_disjoint_lan {rd : Nat → Option Nat} (hrd : ReadsOctets rd) (i j : Nat)
    (hi : i < 256) (hj : j < 256) (hij : i < j) :
    AddressBlock.DisjointFrom rd (lanBlock i) (lanBlock j) :=
  disjointFrom_of_ranges (lanBlock_range hrd i hi) (lanBlock_range hrd j hj)
    (Or.inl (by show 3232235520 + 256 * i + 256 ≤ 3232235520 + 256 * j; omega))

theorem wan_disjoint_lan {rd : Nat → Option Nat} (hrd : ReadsOctets rd) (i j : Nat)
    (hi : i < 256) (hj : j < 256) :
    AddressBlock.DisjointFrom rd (wanBlock i) (lanBlock j) :=
  disjointFrom_of_ranges (wanBlock_range hrd i hi) (lanBlock_range hrd j hj)
    (Or.inl (by show 167837696 + 256 * i + 4 ≤ 3232235520 + 256 * j; omega))

theorem core_disjoint_wan {rd : Nat → Option Nat} (hrd : ReadsOctets rd) (i : Nat)
    (hi : i < 256) : AddressBlock.DisjointFrom rd coreBlock (wanBlock i) :=
  disjointFrom_of_ranges (coreBlock_range hrd) (wanBlock_range hrd i hi)
    (Or.inl (by show 167772164 ≤ 167837696 + 256 * i; omega))

theorem core_disjoint_lan {rd : Nat → Option Nat} (hrd : ReadsOctets rd) (i : Nat)
    (hi : i < 256) : AddressBlock.DisjointFrom rd coreBlock (lanBlock i) :=
  disjointFrom_of_ranges (coreBlock_range hrd) (lanBlock_range hrd i hi)
    (Or.inl (by show 167772164 ≤ 3232235520 + 256 * i; omega))

/-- When field `256` is read as the octet `m`, the WAN block of school 256 covers
the same range as the WAN block of school `m`. -/
theorem wanBlock_256_range {rd : Nat → Option Nat} (hrd : ReadsOctets rd) (m : Nat)
    (hm : m < 256) (h : rd 256 = some m) :
    (wanBlock 256).range rd = (wanBlock m).range rd := by
  unfold AddressBlock.range wanBlock DottedQuad.value
  simp only [h, hrd m hm]

theorem wrapOctet_valued : OctetValued wrapOctet := by
  intro n m h
  unfold wrapOctet at h
  cases h
  exact Nat.mod_lt _ (by decide)

/-- Disjointness of the plan for at most 256 schools. -/
theorem planDisjoint_of_le {rd : Nat → Option Nat} (hrd : ReadsOctets rd) {nSchools : Nat}
    (hn : nSchools ≤ 256) : PlanDisjoint rd nSchools := by
  unfold PlanDisjoint addressPlan
  rw [List.pairwise_cons, List.pairwise_append, List.pairwise_map, List.pairwise_map]
  refine ⟨?_, ?_, ?_, ?_⟩
  · intro b hb
    rw [List.mem_append, List.mem_map, List.mem_map] at hb
    rcases hb with ⟨i, hi, rfl⟩ | ⟨i, hi, rfl⟩
    · exact core_disjoint_wan hrd i (by rw [List.mem_range] at hi; omega)
    · exact core_disjoint_lan hrd i (by rw [List.mem_range] at hi; omega)
  · refine (List.pairwise_lt_range nSchools).imp_of_mem ?_
    intro i j hi hj hij
    rw [List.mem_range] at hi hj
    exact wan_disjoint_wan hrd i j (by omega) (by omega) hij
  · refine (List.pairwise_lt_range nSchools).imp_of_mem ?_
    intro i j hi hj hij
    rw [List.mem_range] at hi hj
    exact lan_disjoint_lan hrd i j (by omega) (by omega) hij
  · intro a ha b hb
    rw [List.mem_map] at ha hb
    obtain ⟨i, hi, rfl⟩ := ha
    obtain ⟨j, hj, rfl⟩ := hb
    rw [List.mem_range] at hi hj
    exact wan_disjoint_lan hrd i j (by omega) (by omega)

/-- With more than 256 schools the plan is not pairwise disjoint, whichever way
field `256` is read as an octet: either the WAN block of school 256 denotes no
range, or it covers the range of the WAN block of an earlier school. -/
theorem not_planDisjoint_of_gt {rd : Nat → Option Nat} (hrd : ReadsOctets rd)
    (hval : OctetValued rd) {nSchools : Nat} (hn : 256 < nSchools) :
    ¬ PlanDisjoint rd nSchools := by
  intro hp
  unfold PlanDisjoint addressPlan at hp
  rw [List.pairwise_cons, List.pairwise_append, List.pairwise_map] at hp
  have hw := hp.2.1
  rw [List.pairwise_iff_getElem] at hw
  have hlast : ∀ m, m < 256 → AddressBlock.DisjointFrom rd (wanBlock m) (wanBlock 256) := by
    intro m hm
    have := hw m 256 (by rw [List.length_range]; omega) (by rw [List.length_range]; omega) hm
    simpa [List.getElem_range] using this
  cases h : rd 256 with
  | none =>
    have h0 := hlast 0 (by decide)
    have hr : (wanBlock 256).range rd = none := by
      unfold AddressBlock.range wanBlock DottedQuad.value
      simp [h]
    unfold AddressBlock.DisjointFrom at h0
    rw [hr] at h0
    split at h0
    · rename_i heq; cases heq
    · exact h0
  | some m =>
    have hm : m < 256 := hval 256 m h
    have h0 := hlast m hm
    unfold AddressBlock.DisjointFrom at h0
    rw [wanBlock_256_range hrd m hm h, wanBlock_range hrd m hm] at h0
    simp only at h0
    omega

theorem lanBlock_hostCapacity {rd : Nat → Option Nat} (hrd : ReadsOctets rd) (i : Nat)
    (hi : i < 256) : (lanBlock i).hostCapacity rd = some 254 := by
  unfold AddressBlock.hostCapacity
  rw [lanBlock_range hrd i hi]
  simp only [Option.map_some']
  congr 1
  omega

/-- C1 (as stated) fails: with 257 schools the blocks are not pairwise disjoint
address ranges, whether a field above 255 is rejected, truncated to eight bits,
or read as any other octet. -/
theorem plan_not_disjoint_257 :
    ¬ PlanDisjoint strictOctet 257 ∧ ¬ PlanDisjoint wrapOctet 257 ∧
    ¬ ∃ rd : Nat → Option Nat, ReadsOctets rd ∧ OctetValued rd ∧ PlanDisjoint rd 257 :=
  ⟨not_planDisjoint_of_gt strictOctet_reads strictOctet_valued (by decide),
    not_planDisjoint_of_gt wrapOctet_reads wrapOctet_valued (by decide),
    fun ⟨_, hrd, hval, hp⟩ => not_planDisjoint_of_gt hrd hval (by decide) hp⟩

/-- C1 (amended). For every number of schools up to 256 (and any number of
devices per school, on which the blocks do not depend) the blocks Core
10.0.0.0/255.255.255.252, Access 10.1.i.0/255.255.255.252 and Local
192.168.i.0/255.255.255.0, `i < nSchools`, cover pairwise disjoint address
ranges; with more than 256 schools they do not, however field 256 is read as an
octet. -/
theorem plan_disjoint (rd : Nat → Option Nat) (hrd : ReadsOctets rd) (nSchools : Nat) :
    (nSchools ≤ 256 → PlanDisjoint rd nSchools) ∧
    (OctetValued rd → 256 < nSchools → ¬ PlanDisjoint rd nSchools) :=
  ⟨fun hn => planDisjoint_of_le hrd hn, fun hval hn => not_planDisjoint_of_gt hrd hval hn⟩

/-- Witness for C1 (amended): the strict reading and 256 schools. -/
theorem plan_disjoint_witness : ReadsOctets strictOctet ∧ PlanDisjoint strictOctet 256 :=
  ⟨strictOctet_reads, (plan_disjoint strictOctet strictOctet_reads 256).1 (le_refl 256)⟩

/-- The strict library refuses exactly the blocks to which the strict reading
gives no address range. -/
theorem strictLibrary_eq_range (served : List AssignRequest) (r : AssignRequest) :
    strictLibrary served r = (r.block.range strictOctet).isSome := by
  obtain ⟨⟨⟨a, b, c, d⟩, ⟨e, f, g, h⟩⟩, n⟩ := r
  unfold strictLibrary AddressBlock.range DottedQuad.value strictOctet
  simp only [AddressBlock.WellFormed, DottedQuad.WellFormed]
  by_cases ha : a < 256 <;> by_cases hb : b < 256 <;> by_cases hc : c < 256 <;>
    by_cases hd : d < 256 <;> by_cases he : e < 256 <;> by_cases hf : f < 256 <;>
    by_cases hg : g < 256 <;> by_cases hh : h < 256 <;> simp [ha, hb, hc, hd, he, hf, hg, hh]

/-- C7 (as stated) fails: a Local block has 254 assignable host addresses, one
fewer than the 255 nodes of a LAN of 254 devices and its router; with 256
devices even the 256 addresses of the whole block are too few. -/
theorem lan_block_too_small :
    (lanBlock 0).hostCapacity strictOctet = some 254 ∧ lanNodeCount 254 = 255 ∧
    (¬ ∃ c, (lanBlock 0).hostCapacity strictOctet = some c ∧ lanNodeCount 254 ≤ c) ∧
    (lanBlock 0).range strictOctet = some (3232235520, 3232235776) ∧
    ¬ lanNodeCount 256 ≤ 3232235776 - 3232235520 := by
  have hc := lanBlock_hostCapacity strictOctet_reads 0 (by decide)
  refine ⟨hc, rfl, ?_, lanBlock_range strictOctet_reads 0 (by decide), by decide⟩
  rintro ⟨c, h, hle⟩
  rw [hc] at h
  cases h
  exact absurd hle (by decide)

/-- C7 (amended). The Local block 192.168.i.0/255.255.255.0 of a school
`i < 256` has exactly 254 assignable host addresses, so it holds the school
router and all `nStudentsPerSchool` devices exactly when
`nStudentsPerSchool ≤ 253`. -/
theorem lan_block_capacity (rd : Nat → Option Nat) (hrd : ReadsOctets rd) (i : Nat)
    (hi : i < 256) (nStudentsPerSchool : Nat) :
    (lanBlock i).hostCapacity rd = some 254 ∧
    ((∃ c, (lanBlock i).hostCapacity rd = some c ∧ lanNodeCount nStudentsPerSchool ≤ c) ↔
      nStudentsPerSchool ≤ 253) := by
  have hc := lanBlock_hostCapacity hrd i hi
  refine ⟨hc, ?_, ?_⟩
  · rintro ⟨c, h, hle⟩
    rw [hc] at h
    cases h
    unfold lanNodeCount at hle
    omega
  · intro h
    exact ⟨254, hc, by unfold lanNodeCount; omega⟩

/-- Witness for C7 (amended): the default fifty devices on the LAN of school 0. -/
theorem lan_block_capacity_witness :
    ReadsOctets strictOctet ∧ 0 < 256 ∧
      ∃ c, (lanBlock 0).hostCapacity strictOctet = some c ∧ lanNodeCount 50 ≤ c :=
  ⟨strictOctet_reads, by decide,
    (lan_block_capacity strictOctet strictOctet_reads 0 (by decide) 50).2.mpr (by decide)⟩

/-! ### Clients -/

/-- C10 (the code at the failing input). With zero devices per school the index
`j % nStudentsPerSchool` of every one of the five clients is undefined; the
index is defined and below `nStudentsPerSchool` exactly when there is at least
one device per school. -/
theorem deviceIdx_zero_devices :
    deviceIdx 0 0 = none ∧ clientDevices 0 = [none, none, none, none, none] ∧
    (∀ n j, (∃ idx, deviceIdx n j = some idx ∧ idx < n) ↔ 0 < n) := by
  refine ⟨rfl, by decide, ?_⟩
  intro n j
  constructor
  · rintro ⟨idx, -, hlt⟩; omega
  · intro hn
    refine ⟨j % n, ?_, Nat.mod_lt _ hn⟩
    unfold deviceIdx
    rw [if_neg (by omega)]

/-! ### Node positions -/

theorem routerAngle_eq {α : Type} [Field α] (pi : α) (n i : Nat) :
    routerAngle pi n i = (i : α) * (2 * pi / (n : α)) := by
  induction i with
  | zero => simp [routerAngle]
  | succ i ih => rw [routerAngle, ih]; push_cast; ring

/-- C8. For every device index `j` the layout computes `ring = j / 20` and
`posInRing = j mod 20`, so `j = 20 * ring + posInRing` with `posInRing < 20`,
ring radius `5 + 3 * ring` and angle `2π * posInRing / 20`; device 22 (of 25)
lands on ring 1 at position 2; two distinct device indices never get the same
(ring, posInRing) pair. -/
theorem ring_layout (j : Nat) :
    ring j = j / 20 ∧ posInRing j = j % 20 ∧
    j = 20 * ring j + posInRing j ∧ posInRing j < 20 ∧
    (deviceRadius j : ℝ) = 5 + 3 * (ring j : ℝ) ∧
    deviceAngle Real.pi j = 2 * Real.pi * (posInRing j : ℝ) / 20 ∧
    (22 < 25 ∧ ring 22 = 1 ∧ posInRing 22 = 2) ∧
    (∀ j' : Nat, j ≠ j' → (ring j, posInRing j) ≠ (ring j', posInRing j')) := by
  refine ⟨rfl, rfl, ?_, ?_, ?_, ?_, ⟨by decide, by decide, by decide⟩, ?_⟩
  · unfold ring posInRing devicesPerRing; omega
  · unfold posInRing devicesPerRing; omega
  · unfold deviceRadius; ring
  · unfold deviceAngle devicesPerRing; norm_num
  · intro j' hne h
    rw [Prod.mk.injEq] at h
    unfold ring posInRing devicesPerRing at h
    omega

/-- C9 (as stated) fails: with six schools of 101 devices, device 100 of school
2 (ring 5 of radius 20, position 0 at angle 0) is placed exactly on the router
of the neighbouring school 1. -/
theorem device_on_neighbour_router :
    (2 ≤ 6 ∧ 2 < 6 ∧ 100 < 101 ∧ (2 + 6 - 1) % 6 = 1) ∧
      devicePos Real.pi Real.cos Real.sin 6 2 100 = routerPos Real.pi Real.cos Real.sin 6 1 := by
  refine ⟨by decide, ?_⟩
  have hr : (deviceRadius 100 : ℝ) = 20 := by
    have : ring 100 = 5 := by decide
    unfold deviceRadius; rw [this]; norm_num
  have ha : deviceAngle Real.pi 100 = 0 := by
    have : posInRing 100 = 0 := by decide
    unfold deviceAngle devicesPerRing; rw [this]; push_cast; ring
  have h1 : routerAngle Real.pi 6 1 = Real.pi / 3 := by
    rw [routerAngle_eq]; push_cast; ring
  have h2 : routerAngle Real.pi 6 2 = Real.pi - Real.pi / 3 := by
    rw [routerAngle_eq]; push_cast; ring
  unfold devicePos routerPos
  rw [hr, ha, h1, h2, Real.cos_pi_sub, Real.sin_pi_sub, Real.cos_zero, Real.sin_zero,
    Real.cos_pi_div_three]
  ext <;> norm_num

/-- The angles of two neighbouring routers differ by `2π/n` up to sign and a
full turn, so the cosine of the difference is `cos (2π/n)`. -/
theorem cos_neighbour_angle (n i k : Nat) (hn : 2 ≤ n) (hi : i < n)
    (hk : k = (i + 1) % n ∨ k = (i + n - 1) % n) :
    Real.cos (routerAngle Real.pi n k - routerAngle Real.pi n i) =
      Real.cos (2 * Real.pi / (n : ℝ)) := by
  have hn0 : (n : ℝ) ≠ 0 := by
    have : 0 < n := by omega
    exact_mod_cast this.ne'
  have hturn : (n : ℝ) * (2 * Real.pi / (n : ℝ)) = 2 * Real.pi := by
    field_simp
  rw [routerAngle_eq, routerAngle_eq]
  rcases hk with hk | hk
  · by_cases hlt : i + 1 < n
    · rw [Nat.mod_eq_of_lt hlt] at hk
      subst hk
      congr 1; push_cast; ring
    · have hin : i + 1 = n := by omega
      have hk0 : k = 0 := by rw [hk, hin, Nat.mod_self]
      have hi' : (i : ℝ) = (n : ℝ) - 1 := by
        rw [← hin]; push_cast; ring
      rw [hk0, hi']
      have : ((0 : Nat) : ℝ) * (2 * Real.pi / (n : ℝ)) - ((n : ℝ) - 1) * (2 * Real.pi / (n : ℝ))
          = 2 * Real.pi / (n : ℝ) - 2 * Real.pi := by
        push_cast; linear_combination -hturn
      rw [this, Real.cos_sub_two_pi]
  · by_cases h0 : i = 0
    · have hk1 : k = n - 1 := by
        rw [hk, h0, Nat.zero_add]
        exact Nat.mod_eq_of_lt (by omega)
      have hk' : (k : ℝ) = (n : ℝ) - 1 := by
        rw [hk1, Nat.cast_sub (by omega)]; push_cast; ring
      rw [hk', h0]
      have : ((n : ℝ) - 1) * (2 * Real.pi / (n : ℝ)) - ((0 : Nat) : ℝ) * (2 * Real.pi / (n : ℝ))
          = 2 * Real.pi - 2 * Real.pi / (n : ℝ) := by
        push_cast; linear_combination hturn
      rw [this, Real.cos_two_pi_sub]
    · have hk1 : k = i - 1 := by
        rw [hk]
        have : i + n - 1 = (i - 1) + n := by omega
        rw [this, Nat.add_mod_right]
        exact Nat.mod_eq_of_lt (by omega)
      have hk' : (k : ℝ) = (i : ℝ) - 1 := by
        rw [hk1, Nat.cast_sub (by omega)]; push_cast; ring
      rw [hk']
      have : ((i : ℝ) - 1) * (2 * Real.pi / (n : ℝ)) - (i : ℝ) * (2 * Real.pi / (n : ℝ))
          = -(2 * Real.pi / (n : ℝ)) := by ring
      rw [this, Real.cos_neg]

/-- For two to six schools neighbouring routers are at least 20 apart:
`cos (2π/n) ≤ 1/2`. -/
theorem cos_spacing_le_half (n : Nat) (hn : 2 ≤ n) (hn6 : n ≤ 6) :
    Real.cos (2 * Real.pi / (n : ℝ)) ≤ 1 / 2 := by
  have hpi := Real.pi_pos
  have h2 : (2 : ℝ) ≤ (n : ℝ) := by exact_mod_cast hn
  have h6 : (n : ℝ) ≤ 6 := by exact_mod_cast hn6
  have hpos : (0 : ℝ) < (n : ℝ) := by linarith
  rw [← Real.cos_pi_div_three]
  apply Real.cos_le_cos_of_nonneg_of_le_pi
  · positivity
  · rw [div_le_iff₀ hpos]; nlinarith
  · rw [le_div_iff₀ hpos]; nlinarith

/-- C9 (amended). Reading coordinates as exact reals, with at least two
schools the router of school `i` is at
`(50 + 20 cos (2π i / nSchools), 30 + 20 sin (2π i / nSchools))`, and device `j`
of school `i` can be placed on the router of a neighbouring school `k`
(`i + 1` or `i - 1` modulo `nSchools`) only if its ring radius `5 + 3 * (j / 20)`
equals the distance between neighbouring routers, that is
`(5 + 3 * (j / 20))² = 800 * (1 - cos (2π / nSchools))`; in particular with at
most six schools and at most 100 devices per school no device is placed on a
neighbouring router. -/
theorem device_off_neighbour_router (nSchools nStudentsPerSchool i j k : Nat)
    (hn : 2 ≤ nSchools) (hi : i < nSchools) (hj : j < nStudentsPerSchool)
    (hk : k = (i + 1) % nSchools ∨ k = (i + nSchools - 1) % nSchools) :
    routerPos Real.pi Real.cos Real.sin nSchools i =
      (50 + 20 * Real.cos (2 * Real.pi * (i : ℝ) / (nSchools : ℝ)),
        30 + 20 * Real.sin (2 * Real.pi * (i : ℝ) / (nSchools : ℝ))) ∧
    (devicePos Real.pi Real.cos Real.sin nSchools i j =
        routerPos Real.pi Real.cos Real.sin nSchools k →
      (5 + 3 * ((j / 20 : Nat) : ℝ)) ^ 2 =
        800 * (1 - Real.cos (2 * Real.pi / (nSchools : ℝ)))) ∧
    (nSchools ≤ 6 → nStudentsPerSchool ≤ 100 →
      devicePos Real.pi Real.cos Real.sin nSchools i j ≠
        routerPos Real.pi Real.cos Real.sin nSchools k) := by
  have key : devicePos Real.pi Real.cos Real.sin nSchools i j =
        routerPos Real.pi Real.cos Real.sin nSchools k →
      (5 + 3 * ((j / 20 : Nat) : ℝ)) ^ 2 =
        800 * (1 - Real.cos (2 * Real.pi / (nSchools : ℝ))) := by
    intro h
    rw [← cos_neighbour_angle nSchools i k hn hi hk, Real.cos_sub]
    unfold devicePos routerPos at h
    rw [Prod.mk.injEq] at h
    obtain ⟨hx, hy⟩ := h
    have hr : (deviceRadius j : ℝ) = 5 + 3 * ((j / 20 : Nat) : ℝ) := by
      unfold deviceRadius ring devicesPerRing; ring
    rw [hr] at hx hy
    have h3 := Real.cos_sq_add_sin_sq (deviceAngle Real.pi j)
    have h4 := Real.cos_sq_add_sin_sq (routerAngle Real.pi nSchools k)
    have h5 := Real.cos_sq_add_sin_sq (routerAngle Real.pi nSchools i)
    generalize Real.cos (deviceAngle Real.pi j) = c at *
    generalize Real.sin (deviceAngle Real.pi j) = s at *
    generalize Real.cos (routerAngle Real.pi nSchools k) = ck at *
    generalize Real.sin (routerAngle Real.pi nSchools k) = sk at *
    generalize Real.cos (routerAngle Real.pi nSchools i) = ci at *
    generalize Real.sin (routerAngle Real.pi nSchools i) = si at *
    generalize (5 + 3 * ((j / 20 : Nat) : ℝ)) = r at *
    linear_combination (-r ^ 2) * h3 + (r * c + 20 * (ck - ci)) * hx
      + (r * s + 20 * (sk - si)) * hy + 400 * h4 + 400 * h5
  have hpos : routerPos Real.pi Real.cos Real.sin nSchools i =
      (50 + 20 * Real.cos (2 * Real.pi * (i : ℝ) / (nSchools : ℝ)),
        30 + 20 * Real.sin (2 * Real.pi * (i : ℝ) / (nSchools : ℝ))) := by
    have ha : routerAngle Real.pi nSchools i = 2 * Real.pi * (i : ℝ) / (nSchools : ℝ) := by
      rw [routerAngle_eq]; ring
    unfold routerPos
    rw [ha]
  refine ⟨hpos, key, ?_⟩
  intro hn6 hd h
  have hkey := key h
  have hcos := cos_spacing_le_half nSchools hn hn6
  have hring : j / 20 ≤ 4 := by omega
  have hr1 : (((j / 20 : Nat)) : ℝ) ≤ 4 := by exact_mod_cast hring
  have hr0 : (0 : ℝ) ≤ ((j / 20 : Nat) : ℝ) := Nat.cast_nonneg _
  nlinarith

/-- Witness for C9 (amended): the default configuration, five schools of fifty
devices, first device of the first school against router 1. -/
theorem device_off_neighbour_router_witness :
    (2 ≤ 5 ∧ 0 < 5 ∧ 0 < 50 ∧ ((1 : Nat) = (0 + 1) % 5 ∨ (1 : Nat) = (0 + 5 - 1) % 5)) ∧
      devicePos Real.pi Real.cos Real.sin 5 0 0 ≠ routerPos Real.pi Real.cos Real.sin 5 1 :=
  ⟨⟨by decide, by decide, by decide, Or.inl (by decide)⟩,
    (device_off_neighbour_router 5 50 0 0 1 (by decide) (by decide) (by decide)
      (Or.inl (by decide))).2.2 (by decide) (by decide)⟩

/-! ### The loop in closed form -/

theorem statsStep_totalThroughput (T : ℚ) (acc : StatsAcc) (f : FlowStats) :
    (statsStep T acc f).totalThroughput =
      acc.totalThroughput + (f.rxBytes : ℚ) * 8 / T / 1000000 := by
  unfold statsStep; split <;> rfl

theorem statsStep_totalPacketsSent (T : ℚ) (acc : StatsAcc) (f : FlowStats) :
    (statsStep T acc f).totalPacketsSent = (acc.totalPacketsSent + f.txPackets) % 2 ^ 64 := by
  unfold statsStep; split <;> rfl

theorem statsStep_totalPacketsReceived (T : ℚ) (acc : StatsAcc) (f : FlowStats) :
    (statsStep T acc f).totalPacketsReceived =
      (acc.totalPacketsReceived + f.rxPackets) % 2 ^ 64 := by
  unfold statsStep; split <;> rfl

theorem statsStep_totalDelay (T : ℚ) (acc : StatsAcc) (f : FlowStats) :
    (statsStep T acc f).totalDelay =
      acc.totalDelay + (if 0 < f.rxPackets then f.delaySum / (f.rxPackets : ℚ) else 0) := by
  unfold statsStep; split <;> simp_all

theorem statsStep_flowCount (T : ℚ) (acc : StatsAcc) (f : FlowStats) :
    (statsStep T acc f).flowCount =
      if 0 < f.rxPackets then (acc.flowCount + 1) % 2 ^ 32 else acc.flowCount := by
  unfold statsStep; split <;> simp_all

theorem foldl_totalThroughput (T : ℚ) (flows : List FlowStats) (acc : StatsAcc) :
    (flows.foldl (statsStep T) acc).totalThroughput =
      acc.totalThroughput + (flows.map (fun f => (f.rxBytes : ℚ) * 8 / T / 1000000)).sum := by
  induction flows generalizing acc with
  | nil => simp
  | cons f fs ih =>
    rw [List.foldl_cons, ih, statsStep_totalThroughput, List.map_cons, List.sum_cons]
    ring

theorem foldl_totalPacketsSent (T : ℚ) (flows : List FlowStats) (acc : StatsAcc)
    (h : acc.totalPacketsSent < 2 ^ 64) :
    (flows.foldl (statsStep T) acc).totalPacketsSent =
      (acc.totalPacketsSent + (flows.map FlowStats.txPackets).sum) % 2 ^ 64 := by
  induction flows generalizing acc with
  | nil => simpa using (Nat.mod_eq_of_lt h).symm
  | cons f fs ih =>
    rw [List.foldl_cons, ih, statsStep_totalPacketsSent, List.map_cons, List.sum_cons,
      Nat.mod_add_mod, Nat.add_assoc]
    rw [statsStep_totalPacketsSent]
    exact Nat.mod_lt _ (by norm_num)

theorem foldl_totalPacketsReceived (T : ℚ) (flows : List FlowStats) (acc : StatsAcc)
    (h : acc.totalPacketsReceived < 2 ^ 64) :
    (flows.foldl (statsStep T) acc).totalPacketsReceived =
      (acc.totalPacketsReceived + (flows.map FlowStats.rxPackets).sum) % 2 ^ 64 := by
  induction flows generalizing acc with
  | nil => simpa using (Nat.mod_eq_of_lt h).symm
  | cons f fs ih =>
    rw [List.foldl_cons, ih, statsStep_totalPacketsReceived, List.map_cons, List.sum_cons,
      Nat.mod_add_mod, Nat.add_assoc]
    rw [statsStep_totalPacketsReceived]
    exact Nat.mod_lt _ (by norm_num)

theorem foldl_totalDelay (T : ℚ) (flows : List FlowStats) (acc : StatsAcc) :
    (flows.foldl (statsStep T) acc).totalDelay =
      acc.totalDelay +
        ((deliveredFlows flows).map (fun f => f.delaySum / (f.rxPackets : ℚ))).sum := by
  induction flows generalizing acc with
  | nil => simp [deliveredFlows]
  | cons f fs ih =>
    rw [List.foldl_cons, ih, statsStep_totalDelay]
    unfold deliveredFlows at *
    by_cases hf : 0 < f.rxPackets
    · simp [List.filter_cons, hf]; ring
    · simp [List.filter_cons, hf]

theorem foldl_flowCount (T : ℚ) (flows : List FlowStats) (acc : StatsAcc)
    (h : acc.flowCount < 2 ^ 32) :
    (flows.foldl (statsStep T) acc).flowCount =
      (acc.flowCount + (deliveredFlows flows).length) % 2 ^ 32 := by
  induction flows generalizing acc with
  | nil => simpa [deliveredFlows] using (Nat.mod_eq_of_lt h).symm
  | cons f fs ih =>
    have hlt : (statsStep T acc f).flowCount < 2 ^ 32 := by
      rw [statsStep_flowCount]; split
      · exact Nat.mod_lt _ (by norm_num)
      · exact h
    rw [List.foldl_cons, ih _ hlt, statsStep_flowCount]
    unfold deliveredFlows
    by_cases hf : 0 < f.rxPackets
    · simp [List.filter_cons, hf, Nat.mod_add_mod]; congr 1; omega
    · simp [List.filter_cons, hf]

theorem deliveredFlows_length_le (flows : List FlowStats) :
    (deliveredFlows flows).length ≤ flows.length :=
  List.length_filter_le _ _

theorem deliveredFlows_length_pos (flows : List FlowStats) :
    0 < (deliveredFlows flows).length ↔ ∃ f ∈ flows, 0 < f.rxPackets := by
  unfold deliveredFlows
  rw [List.length_pos_iff_exists_mem]
  constructor
  · rintro ⟨f, hf⟩
    rw [List.mem_filter] at hf
    exact ⟨f, hf.1, by simpa using hf.2⟩
  · rintro ⟨f, hf, hr⟩
    exact ⟨f, List.mem_filter.mpr ⟨hf, by simpa using hr⟩⟩

/-- C3. With exact rational arithmetic and no counter overflow, for every list
of flow records and every duration `T > 0` the statistics block reports
total throughput `Σ rxBytes·8/T/10^6`, packets sent `Σ txPackets`, packets
received `Σ rxPackets`, delivery ratio `100·received/sent` (when packets were
sent) and mean delay `1000·(Σ over flows with rxPackets > 0 of
delaySum/rxPackets)/(number of such flows)` (when there is such a flow), an
unweighted mean of per-flow means; on the two example flows with `T = 60` this
gives 75 %, 11 ms (the packet-weighted mean would be 1600/150 ms) and a
throughput of 153600·8/60/10^6 Mbps. -/
theorem statistics_formulas (flows : List FlowStats) (T : ℚ) (hT : 0 < T)
    (hov : NoCounterOverflow flows) :
    ((finalStatistics T flows).totalThroughput =
        some ((flows.map (fun f => (f.rxBytes : ℚ) * 8 / T / 10 ^ 6)).sum) ∧
      (finalStatistics T flows).packetsSent = some ((flows.map FlowStats.txPackets).sum) ∧
      (finalStatistics T flows).packetsReceived = some ((flows.map FlowStats.rxPackets).sum) ∧
      (0 < (flows.map FlowStats.txPackets).sum →
        (finalStatistics T flows).deliveryRatio =
          some (100 * ((flows.map FlowStats.rxPackets).sum : ℚ) /
            ((flows.map FlowStats.txPackets).sum : ℚ))) ∧
      (0 < (deliveredFlows flows).length →
        (finalStatistics T flows).meanDelayMs =
          some (1000 * ((deliveredFlows flows).map
              (fun f => f.delaySum / (f.rxPackets : ℚ))).sum /
            ((deliveredFlows flows).length : ℚ)))) ∧
    ((finalStatistics 60 exampleFlows).deliveryRatio = some 75 ∧
      (finalStatistics 60 exampleFlows).meanDelayMs = some 11 ∧
      packetWeightedDelayMs exampleFlows = 1600 / 150 ∧
      (11 : ℚ) ≠ 1600 / 150 ∧
      (finalStatistics 60 exampleFlows).totalThroughput = some (153600 * 8 / 60 / 10 ^ 6)) := by
  obtain ⟨hs, hr, hc⟩ := hov
  have hT0 : T ≠ 0 := ne_of_gt hT
  have e1 : (statsLoop T flows).totalThroughput =
      (flows.map (fun f => (f.rxBytes : ℚ) * 8 / T / 10 ^ 6)).sum := by
    unfold statsLoop
    rw [foldl_totalThroughput]
    norm_num [StatsAcc.init]
  have e2 : (statsLoop T flows).totalPacketsSent = (flows.map FlowStats.txPackets).sum := by
    unfold statsLoop
    rw [foldl_totalPacketsSent _ _ _ (by norm_num [StatsAcc.init])]
    simpa [StatsAcc.init] using Nat.mod_eq_of_lt hs
  have e3 : (statsLoop T flows).totalPacketsReceived =
      (flows.map FlowStats.rxPackets).sum := by
    unfold statsLoop
    rw [foldl_totalPacketsReceived _ _ _ (by norm_num [StatsAcc.init])]
    simpa [StatsAcc.init] using Nat.mod_eq_of_lt hr
  have e4 : (statsLoop T flows).totalDelay =
      ((deliveredFlows flows).map (fun f => f.delaySum / (f.rxPackets : ℚ))).sum := by
    unfold statsLoop
    rw [foldl_totalDelay]
    simp [StatsAcc.init]
  have e5 : (statsLoop T flows).flowCount = (deliveredFlows flows).length := by
    unfold statsLoop
    rw [foldl_flowCount _ _ _ (by norm_num [StatsAcc.init])]
    simpa [StatsAcc.init] using Nat.mod_eq_of_lt hc
  refine ⟨⟨?_, ?_, ?_, ?_, ?_⟩, ?_, ?_, ?_, ?_, ?_⟩
  · simp only [finalStatistics, logReport, e1]
  · simp only [finalStatistics, logReport, e2]
  · simp only [finalStatistics, logReport, e3]
  · intro hpos
    simp only [finalStatistics, logReport, e2, e3, gt_iff_lt, hpos, if_true]
    congr 1; push_cast; ring
  · intro hpos
    simp only [finalStatistics, logReport, e4, e5, gt_iff_lt, hpos, if_true]
    congr 1; ring
  · norm_num [finalStatistics, logReport, statsLoop, statsStep, exampleFlows, StatsAcc.init]
  · norm_num [finalStatistics, logReport, statsLoop, statsStep, exampleFlows, StatsAcc.init]
  · norm_num [packetWeightedDelayMs, exampleFlows]
  · norm_num
  · norm_num [finalStatistics, logReport, statsLoop, statsStep, exampleFlows, StatsAcc.init]

/-- Witness for C3: the two example flows over 60 s satisfy the hypotheses. -/
theorem statistics_formulas_witness :
    (0 : ℚ) < 60 ∧ NoCounterOverflow exampleFlows ∧
      (finalStatistics 60 exampleFlows).packetsSent = some 200 ∧
      (finalStatistics 60 exampleFlows).packetsReceived = some 150 := by
  have hov : NoCounterOverflow exampleFlows := by
    unfold NoCounterOverflow deliveredFlows exampleFlows
    decide
  have h := statistics_formulas exampleFlows 60 (by norm_num) hov
  refine ⟨by norm_num, hov, ?_, ?_⟩
  · rw [h.1.2.1]; rfl
  · rw [h.1.2.2.1]; rfl

/-- C4. For every list of flow records (of fewer than 2^32 records, the
capacity of a container keyed by 32-bit flow identifiers, so that the 32-bit
`flowCount` counts them), the delivery ratio is reported exactly when the total
of packets sent is positive, the mean delay is reported exactly when some flow
has `rxPackets > 0`, and over the empty list neither is reported. -/
theorem report_presence (flows : List FlowStats) (T : ℚ) (hlen : flows.length < 2 ^ 32) :
    ((finalStatistics T flows).deliveryRatio.isSome = true ↔
        0 < (statsLoop T flows).totalPacketsSent) ∧
    ((flows.map FlowStats.txPackets).sum < 2 ^ 64 →
      ((finalStatistics T flows).deliveryRatio.isSome = true ↔
        0 < (flows.map FlowStats.txPackets).sum)) ∧
    ((finalStatistics T flows).meanDelayMs.isSome = true ↔ ∃ f ∈ flows, 0 < f.rxPackets) ∧
    (finalStatistics T []).deliveryRatio = none ∧
    (finalStatistics T []).meanDelayMs = none := by
  have hsent : (finalStatistics T flows).deliveryRatio.isSome = true ↔
      0 < (statsLoop T flows).totalPacketsSent := by
    simp only [finalStatistics, logReport, gt_iff_lt]
    split <;> simp_all
  have e5 : (statsLoop T flows).flowCount = (deliveredFlows flows).length := by
    unfold statsLoop
    rw [foldl_flowCount _ _ _ (by norm_num [StatsAcc.init])]
    have hc : (deliveredFlows flows).length < 2 ^ 32 :=
      lt_of_le_of_lt (deliveredFlows_length_le flows) hlen
    simpa [StatsAcc.init] using Nat.mod_eq_of_lt hc
  refine ⟨hsent, ?_, ?_, ?_, ?_⟩
  · intro hs
    rw [hsent]
    unfold statsLoop
    rw [foldl_totalPacketsSent _ _ _ (by norm_num [StatsAcc.init])]
    have : (StatsAcc.init.totalPacketsSent + (flows.map FlowStats.txPackets).sum) % 2 ^ 64
        = (flows.map FlowStats.txPackets).sum := by
      simpa [StatsAcc.init] using Nat.mod_eq_of_lt hs
    rw [this]
  · rw [← deliveredFlows_length_pos, ← e5]
    simp only [finalStatistics, logReport, gt_iff_lt]
    split <;> simp_all
  · rfl
  · rfl

/-- Witness for C4: the example flows form a list of fewer than 2^32 records. -/
theorem report_presence_witness :
    exampleFlows.length < 2 ^ 32 ∧
      (finalStatistics 60 exampleFlows).meanDelayMs.isSome = true := by
  have hlen : exampleFlows.length < 2 ^ 32 := by
    unfold exampleFlows; decide
  refine ⟨hlen, ?_⟩
  rw [(report_presence exampleFlows 60 hlen).2.2.1]
  exact ⟨_, List.mem_cons_self _ _, by decide⟩

/-- C5 (as stated) fails: over the empty flow collection the three totals are
reported as the number zero, so not every derived field is "no data". -/
theorem empty_report_not_all_absent :
    (finalStatistics 60 []).totalThroughput = some 0 ∧
    (finalStatistics 60 []).packetsSent = some 0 ∧
    (finalStatistics 60 []).packetsReceived = some 0 ∧
    ¬ ((finalStatistics 60 []).totalThroughput = none ∧
        (finalStatistics 60 []).packetsSent = none ∧
        (finalStatistics 60 []).packetsReceived = none ∧
        (finalStatistics 60 []).deliveryRatio = none ∧
        (finalStatistics 60 []).meanDelayMs = none) := by
  refine ⟨rfl, rfl, rfl, ?_⟩
  rintro ⟨h, -⟩
  exact Option.noConfusion h

/-- C5 (amended). Over the empty flow collection the delivery ratio and the mean
delay are absent from the report, while total throughput, packets sent and
packets received are reported as the number zero. -/
theorem empty_report (T : ℚ) :
    (finalStatistics T []).totalThroughput = some 0 ∧
    (finalStatistics T []).packetsSent = some 0 ∧
    (finalStatistics T []).packetsReceived = some 0 ∧
    (finalStatistics T []).deliveryRatio = none ∧
    (finalStatistics T []).meanDelayMs = none :=
  ⟨rfl, rfl, rfl, rfl, rfl⟩

end Celmia
